import Mathlib

/-!
Shallow embedding of `src/components/OrderManagement.tsx` from the
order-management repository, together with proofs of the specified
properties of its ticket-pool manager and order-store synchronisation.

The component keeps three pieces of React state: the confirmed order list
(`orderItems`), the staged order list (`tempOrderItems`), and the per-item
pools of unused ticket numbers (`availableTickets`).  The durable store is
a Supabase table of orders; we model it as a list of rows in
`created_at`-ascending order, and model each remote call's success or
failure by an explicit boolean.  The store operations a handler issues are
recorded as a `StoreOp` trace so that frame conditions ("does not touch
the durable store") are provable statements.
-/

namespace OrderManagement

/-- `TICKET_COUNT = 10`, the total number of tickets per item kind. -/
def TICKET_COUNT : Nat := 10

/-- The item kind: the TS union type `'リンゴ' | 'バナナ'` (apple / banana). -/
inductive Item where
  | ringo
  | banana
deriving DecidableEq

/-- The TS `OrderItem` interface: id, item kind, price, ticket number. -/
structure OrderItem where
  id : Int
  item : Item
  price : Int
  ticketNumber : Int
deriving DecidableEq

/-- The TS `AvailableTickets` record: one pool of ticket numbers per item kind. -/
structure AvailableTickets where
  ringo : List Int
  banana : List Int
deriving DecidableEq

/-- Read the pool of an item kind (`availableTickets[item]`). -/
def AvailableTickets.get (av : AvailableTickets) : Item → List Int
  | Item.ringo => av.ringo
  | Item.banana => av.banana

/-- Overwrite the pool of one item kind (`{...prev, [item]: l}`). -/
def AvailableTickets.set (av : AvailableTickets) : Item → List Int → AvailableTickets
  | Item.ringo, l => { av with ringo := l }
  | Item.banana, l => { av with banana := l }

/-- `Array.from({length: TICKET_COUNT}, (_, i) => i + 1)` = `[1, ..., 10]`. -/
def ticketRange : List Int := (List.range TICKET_COUNT).map (fun i => (i : Int) + 1)

/-- The initial `availableTickets` state: the full range for both kinds. -/
def initialAvailableTickets : AvailableTickets :=
  { ringo := ticketRange, banana := ticketRange }

/-- The per-kind used-ticket lists built by the `orders.forEach` loop of
`updateAvailableTickets`: the ticket numbers of the orders of kind `k`,
in list order. -/
def usedTickets (orders : List OrderItem) (k : Item) : List Int :=
  (orders.filter (fun o => decide (o.item = k))).map (fun o => o.ticketNumber)

/-- `updateAvailableTickets`: recompute both pools from the order list as
`[1..10].filter(t => !usedTickets[kind].includes(t))`. -/
def updateAvailableTickets (orders : List OrderItem) : AvailableTickets :=
  { ringo := ticketRange.filter (fun ticket => !(decide (ticket ∈ usedTickets orders Item.ringo))),
    banana := ticketRange.filter (fun ticket => !(decide (ticket ∈ usedTickets orders Item.banana))) }

/-- The component's React state relevant to the claims. -/
structure ComponentState where
  orderItems : List OrderItem
  tempOrderItems : List OrderItem
  availableTickets : AvailableTickets
deriving DecidableEq

/-- A row sent to the store by `addOrderToDatabase` (id assigned by the store). -/
structure InsertRow where
  item : Item
  price : Int
  ticket_number : Int
  status : String
deriving DecidableEq

/-- An operation issued against the durable store. -/
inductive StoreOp where
  | insert (rows : List InsertRow)
  | delete (id : Int)
  | select
deriving DecidableEq

/-- The durable store: the `orders` table, rows in `created_at` ascending order. -/
abbrev DB := List OrderItem

/-- The batch of rows `addOrderToDatabase` inserts, status defaulted to pending. -/
def insertBatch (orderItems : List OrderItem) : List InsertRow :=
  orderItems.map (fun o =>
    { item := o.item, price := o.price, ticket_number := o.ticketNumber, status := "pending" })

/-- Effect of an insert on the store: on success the rows are appended with
store-assigned ids (`newIds`); on failure the error is only logged and the
table is unchanged. -/
def applyInsert (db : DB) (rows : List InsertRow) (newIds : List Int) (ok : Bool) : DB :=
  if ok then
    (db : List OrderItem) ++ (rows.zip newIds).map (fun p =>
      { id := p.2, item := p.1.item, price := p.1.price, ticketNumber := p.1.ticket_number })
  else db

/-- `removeOrderFromDatabase`: delete by id; on failure the error is only
logged and the table is unchanged. -/
def removeOrderFromDatabase (db : DB) (id : Int) (ok : Bool) : DB :=
  if ok then (db : List OrderItem).filter (fun o => decide (o.id ≠ id)) else db

/-- `fetchOrdersFromDatabase`: select all rows ordered by creation time; on
error, log and return the empty list. -/
def fetchOrdersFromDatabase (db : DB) (ok : Bool) : List OrderItem :=
  if ok then db else []

/-- The state transition performed by calling the `updateAvailableTickets`
state setter: the whole pool record is overwritten with the recomputation
from `orders`; no other state is read or written. -/
def setAvailableTicketsFrom (s : ComponentState) (orders : List OrderItem) : ComponentState :=
  { s with availableTickets := updateAvailableTickets orders }

/-- `getNextAvailableTicket`: `availableTickets[item][0] || null`.  An empty
pool gives `undefined`, and `0` is falsy, so both map to `null`. -/
def getNextAvailableTicket (av : AvailableTickets) (item : Item) : Option Int :=
  match av.get item with
  | [] => none
  | t :: _ => if t = 0 then none else some t

/-- `addTempItem`: allocate the next ticket; on success append a staged order
and remove the ticket from that kind's pool; on exhaustion show a blocking
alert (the returned boolean) and change nothing. -/
def addTempItem (s : ComponentState) (item : Item) (price : Int) (newId : Int) :
    ComponentState × Bool :=
  match getNextAvailableTicket s.availableTickets item with
  | some ticketNumber =>
      ({ s with
          tempOrderItems := s.tempOrderItems ++
            [{ id := newId, item := item, price := price, ticketNumber := ticketNumber }],
          availableTickets := s.availableTickets.set item
            ((s.availableTickets.get item).filter (fun t => decide (t ≠ ticketNumber))) },
        false)
  | none => (s, true)

/-- `confirmOrder`: insert the staged orders, refetch the full order list,
recompute the pools from it, and clear the staged list.  `insertOk` and
`fetchOk` model the success of the two remote calls; `newIds` models the
ids the store assigns to inserted rows.  The result carries the new local
state, the new table contents, and the trace of store operations issued. -/
def confirmOrder (s : ComponentState) (db : DB) (newIds : List Int)
    (insertOk fetchOk : Bool) : ComponentState × DB × List StoreOp :=
  let batch := insertBatch s.tempOrderItems
  let db' := applyInsert db batch newIds insertOk
  let updatedOrders := fetchOrdersFromDatabase db' fetchOk
  ({ s with
      orderItems := updatedOrders,
      availableTickets := updateAvailableTickets updatedOrders,
      tempOrderItems := [] },
    db',
    [StoreOp.insert batch, StoreOp.select])

/-- `removeItem`: delete the order by id from the store, refetch the full
order list, and recompute the pools from it. -/
def removeItem (s : ComponentState) (db : DB) (deleteOk fetchOk : Bool) (id : Int) :
    ComponentState × DB × List StoreOp :=
  let db' := removeOrderFromDatabase db id deleteOk
  let updatedOrders := fetchOrdersFromDatabase db' fetchOk
  ({ s with
      orderItems := updatedOrders,
      availableTickets := updateAvailableTickets updatedOrders },
    db',
    [StoreOp.delete id, StoreOp.select])

/-- One step of the `tempOrderItems.forEach` loop in `clearTempOrder`:
`[...prev[item.item], item.ticketNumber].sort((a, b) => a - b)`.  JS numeric
sort produces the ascending-sorted permutation, modelled by insertion sort. -/
def returnTicket (av : AvailableTickets) (o : OrderItem) : AvailableTickets :=
  av.set o.item (List.insertionSort (· ≤ ·) (av.get o.item ++ [o.ticketNumber]))

/-- `clearTempOrder`: re-insert every staged order's ticket into its kind's
pool (each functional state update reads the previous pool, so the loop is a
left fold) and empty the staged list.  No store operation is issued. -/
def clearTempOrder (s : ComponentState) : ComponentState × List StoreOp :=
  ({ s with
      availableTickets := s.tempOrderItems.foldl returnTicket s.availableTickets,
      tempOrderItems := [] },
    [])

/-- The realtime-subscription handler: on any change notification, refetch
the full order list and recompute the pools; the staged list is untouched. -/
def handleChange (s : ComponentState) (db : DB) (fetchOk : Bool) : ComponentState :=
  let updatedOrders := fetchOrdersFromDatabase db fetchOk
  { s with
      orderItems := updatedOrders,
      availableTickets := updateAvailableTickets updatedOrders }

/-! Basic lemmas about the ticket range and the recomputed pools. -/

theorem ticketRange_eq : ticketRange = [1, 2, 3, 4, 5, 6, 7, 8, 9, 10] := by decide

theorem mem_ticketRange {t : Int} : t ∈ ticketRange ↔ 1 ≤ t ∧ t ≤ (TICKET_COUNT : Int) := by
  rw [ticketRange_eq]
  simp only [List.mem_cons, List.not_mem_nil, or_false, TICKET_COUNT]
  omega

theorem ticketRange_sorted : ticketRange.Sorted (· < ·) := by decide

theorem get_updateAvailableTickets (orders : List OrderItem) (k : Item) :
    (updateAvailableTickets orders).get k =
      ticketRange.filter (fun ticket => !(decide (ticket ∈ usedTickets orders k))) := by
  cases k <;> rfl

theorem mem_updateAvailableTickets {orders : List OrderItem} {k : Item} {t : Int} :
    t ∈ (updateAvailableTickets orders).get k ↔
      (1 ≤ t ∧ t ≤ (TICKET_COUNT : Int)) ∧ t ∉ usedTickets orders k := by
  rw [get_updateAvailableTickets, List.mem_filter]
  simp [mem_ticketRange]

theorem sorted_updateAvailableTickets (orders : List OrderItem) (k : Item) :
    ((updateAvailableTickets orders).get k).Sorted (· < ·) := by
  rw [get_updateAvailableTickets]
  exact List.Pairwise.filter _ ticketRange_sorted

theorem nodup_updateAvailableTickets (orders : List OrderItem) (k : Item) :
    ((updateAvailableTickets orders).get k).Nodup :=
  (sorted_updateAvailableTickets orders k).nodup

theorem mem_usedTickets {orders : List OrderItem} {k : Item} {t : Int} :
    t ∈ usedTickets orders k ↔ ∃ o, o ∈ orders ∧ o.item = k ∧ o.ticketNumber = t := by
  simp [usedTickets, List.mem_map, List.mem_filter, and_assoc]

/-- C1: for every list of open orders, `updateAvailableTickets` computes, for
each item kind, exactly the set `{1..10}` minus the ticket numbers of that
kind's orders in the list, as a list sorted ascending. -/
theorem updateAvailableTickets_spec (orders : List OrderItem) (k : Item) :
    ((updateAvailableTickets orders).get k).Sorted (· < ·) ∧
    ∀ t : Int, t ∈ (updateAvailableTickets orders).get k ↔
      (1 ≤ t ∧ t ≤ (TICKET_COUNT : Int) ∧ t ∉ usedTickets orders k) := by
  refine ⟨sorted_updateAvailableTickets orders k, fun t => ?_⟩
  rw [mem_updateAvailableTickets]
  tauto

/-- C7: pool recomputation is idempotent: applying the
`updateAvailableTickets` state transition twice to the same order list
yields the same state as applying it once, and the resulting pool record
depends only on the order list, never on the previous pool. -/
theorem updateAvailableTickets_idempotent (s : ComponentState) (orders : List OrderItem) :
    setAvailableTicketsFrom (setAvailableTicketsFrom s orders) orders =
      setAvailableTicketsFrom s orders ∧
    ∀ s' : ComponentState,
      (setAvailableTicketsFrom s' orders).availableTickets =
        (setAvailableTicketsFrom s orders).availableTickets :=
  ⟨rfl, fun _ => rfl⟩

theorem updateAvailableTickets_nil_get (k : Item) :
    (updateAvailableTickets []).get k = ticketRange := by
  cases k <;> simp [updateAvailableTickets, usedTickets, AvailableTickets.get]

/-- C8: if the refetch inside `confirmOrder` or `removeItem` fails,
`fetchOrdersFromDatabase` returns the empty list and the caller installs it
unconditionally, so the local order list becomes empty and every kind's pool
resets to the full `[1..10]`, regardless of the orders actually present in
the durable store. -/
theorem fetch_failure_resets_pool (s : ComponentState) (db : DB) (newIds : List Int)
    (insertOk deleteOk : Bool) (id : Int) :
    fetchOrdersFromDatabase db false = [] ∧
    (confirmOrder s db newIds insertOk false).1.orderItems = [] ∧
    (∀ k, ((confirmOrder s db newIds insertOk false).1.availableTickets).get k = ticketRange) ∧
    (removeItem s db deleteOk false id).1.orderItems = [] ∧
    (∀ k, ((removeItem s db deleteOk false id).1.availableTickets).get k = ticketRange) :=
  ⟨rfl, rfl, fun k => updateAvailableTickets_nil_get k, rfl,
    fun k => updateAvailableTickets_nil_get k⟩

/-- C10: `confirmOrder` clears the staged-order list unconditionally, even
when the insert into the durable store fails (the error being only logged),
so on a failed confirm (`insertOk = false`) the staged orders are discarded
while the store is unchanged: confirmation is not atomic on error. -/
theorem confirmOrder_clears_staged_unconditionally (s : ComponentState) (db : DB)
    (newIds : List Int) (insertOk fetchOk : Bool) :
    (confirmOrder s db newIds insertOk fetchOk).1.tempOrderItems = [] ∧
    (confirmOrder s db newIds false fetchOk).2.1 = db :=
  ⟨rfl, rfl⟩

/-- C6: confirming with an empty staged-order list performs no effective
write to the durable store: the insert batch `confirmOrder` sends is empty
and the table contents are unchanged. -/
theorem confirmOrder_empty_noop (s : ComponentState) (db : DB) (newIds : List Int)
    (insertOk fetchOk : Bool) (h : s.tempOrderItems = []) :
    insertBatch s.tempOrderItems = [] ∧
    (confirmOrder s db newIds insertOk fetchOk).2.1 = db ∧
    (confirmOrder s db newIds insertOk fetchOk).2.2 = [StoreOp.insert [], StoreOp.select] := by
  have hb : insertBatch s.tempOrderItems = [] := by rw [h]; rfl
  refine ⟨hb, ?_, ?_⟩
  · show applyInsert db (insertBatch s.tempOrderItems) newIds insertOk = db
    rw [hb]
    cases insertOk <;> simp [applyInsert]
  · show [StoreOp.insert (insertBatch s.tempOrderItems), StoreOp.select] =
      [StoreOp.insert [], StoreOp.select]
    rw [hb]

theorem confirmOrder_empty_noop_witness :
    (⟨[], [], initialAvailableTickets⟩ : ComponentState).tempOrderItems = [] ∧
    (confirmOrder ⟨[], [], initialAvailableTickets⟩ [] [] true true).2.1 = [] :=
  ⟨rfl, (confirmOrder_empty_noop ⟨[], [], initialAvailableTickets⟩ [] [] true true rfl).2.1⟩

/-- C3: whenever the pool for an item kind is empty, `addTempItem` for that
kind creates no staged order and leaves the whole state (in particular the
pool of every kind) unchanged, and the returned flag records that the
exhaustion alert was shown to the user. -/
theorem addTempItem_exhausted (s : ComponentState) (k : Item) (price newId : Int)
    (h : s.availableTickets.get k = []) :
    addTempItem s k price newId = (s, true) := by
  simp [addTempItem, getNextAvailableTicket, h]

theorem addTempItem_exhausted_witness :
    (⟨[], [], ⟨[], ticketRange⟩⟩ : ComponentState).availableTickets.get Item.ringo = [] ∧
    addTempItem ⟨[], [], ⟨[], ticketRange⟩⟩ Item.ringo 350 5 =
      (⟨[], [], ⟨[], ticketRange⟩⟩, true) :=
  ⟨rfl, addTempItem_exhausted ⟨[], [], ⟨[], ticketRange⟩⟩ Item.ringo 350 5 rfl⟩

theorem headI_le_of_sorted {l : List Int} (hs : l.Sorted (· < ·)) {t : Int} (ht : t ∈ l) :
    l.headI ≤ t := by
  cases l with
  | nil => cases ht
  | cons a rest =>
    rcases List.mem_cons.mp ht with rfl | hm
    · exact le_refl _
    · exact le_of_lt ((List.sorted_cons.mp hs).1 t hm)

/-- A sample open order, database and component state for concrete witnesses. -/
def sampleOrder : OrderItem := { id := 1, item := Item.ringo, price := 350, ticketNumber := 1 }

def sampleDB : List OrderItem := [sampleOrder]

def sampleState : ComponentState :=
  { orderItems := sampleDB, tempOrderItems := [],
    availableTickets := updateAvailableTickets sampleDB }

/-- C4: for every non-empty pool of an item kind (as recomputed from the
order list), the ticket number allocated by `addTempItem` via
`getNextAvailableTicket` is the smallest ticket number in `[1..10]` not used
by that kind's orders; no alert is raised and the staged order carries
exactly that number. -/
theorem addTempItem_allocates_smallest (orders : List OrderItem) (s : ComponentState)
    (k : Item) (price newId : Int)
    (hpool : s.availableTickets.get k = (updateAvailableTickets orders).get k)
    (hne : (updateAvailableTickets orders).get k ≠ []) :
    getNextAvailableTicket s.availableTickets k =
      some ((updateAvailableTickets orders).get k).headI ∧
    (addTempItem s k price newId).2 = false ∧
    (addTempItem s k price newId).1.tempOrderItems =
      s.tempOrderItems ++
        [⟨newId, k, price, ((updateAvailableTickets orders).get k).headI⟩] ∧
    (1 ≤ ((updateAvailableTickets orders).get k).headI ∧
      ((updateAvailableTickets orders).get k).headI ≤ (TICKET_COUNT : Int) ∧
      ((updateAvailableTickets orders).get k).headI ∉ usedTickets orders k) ∧
    ∀ t : Int, 1 ≤ t → t ≤ (TICKET_COUNT : Int) → t ∉ usedTickets orders k →
      ((updateAvailableTickets orders).get k).headI ≤ t := by
  have hs := sorted_updateAvailableTickets orders k
  obtain ⟨a, rest, he⟩ := List.exists_cons_of_ne_nil hne
  have hmem_a : a ∈ (updateAvailableTickets orders).get k := by
    rw [he]
    exact List.mem_cons_self a rest
  have hprop := mem_updateAvailableTickets.mp hmem_a
  have h1a : 1 ≤ a := hprop.1.1
  have hheadI : ((updateAvailableTickets orders).get k).headI = a := by rw [he]; rfl
  have hnext : getNextAvailableTicket s.availableTickets k = some a := by
    unfold getNextAvailableTicket
    rw [hpool, he]
    have ha0 : ¬ a = 0 := by omega
    simp [ha0]
  refine ⟨by rw [hheadI]; exact hnext, ?_, ?_, ?_, ?_⟩
  · simp [addTempItem, hnext]
  · rw [hheadI]
    simp [addTempItem, hnext]
  · rw [hheadI]
    exact ⟨hprop.1.1, hprop.1.2, hprop.2⟩
  · intro t h1 h2 h3
    rw [hheadI]
    have ht : t ∈ (updateAvailableTickets orders).get k :=
      mem_updateAvailableTickets.mpr ⟨⟨h1, h2⟩, h3⟩
    have := headI_le_of_sorted hs ht
    rwa [hheadI] at this

theorem addTempItem_allocates_smallest_witness :
    sampleState.availableTickets.get Item.ringo =
      (updateAvailableTickets sampleDB).get Item.ringo ∧
    (updateAvailableTickets sampleDB).get Item.ringo ≠ [] ∧
    getNextAvailableTicket sampleState.availableTickets Item.ringo = some 2 :=
  ⟨rfl, by decide,
    (addTempItem_allocates_smallest sampleDB sampleState Item.ringo 350 5 rfl (by decide)).1⟩

theorem usedTickets_cons (o : OrderItem) (rest : List OrderItem) (k : Item) :
    usedTickets (o :: rest) k =
      if o.item = k then o.ticketNumber :: usedTickets rest k else usedTickets rest k := by
  by_cases h : o.item = k <;> simp [usedTickets, List.filter_cons, h]

theorem get_returnTicket (av : AvailableTickets) (o : OrderItem) (k : Item) :
    (returnTicket av o).get k =
      if o.item = k then List.insertionSort (· ≤ ·) (av.get k ++ [o.ticketNumber])
      else av.get k := by
  cases hk : o.item <;> cases k <;>
    simp [returnTicket, AvailableTickets.set, AvailableTickets.get, hk]

theorem foldl_returnTicket_perm (items : List OrderItem) (av : AvailableTickets) (k : Item) :
    List.Perm ((items.foldl returnTicket av).get k) (av.get k ++ usedTickets items k) := by
  induction items generalizing av with
  | nil => simp [usedTickets]
  | cons o rest ih =>
    show List.Perm ((rest.foldl returnTicket (returnTicket av o)).get k) _
    refine (ih (returnTicket av o)).trans ?_
    rw [usedTickets_cons, get_returnTicket]
    by_cases h : o.item = k
    · rw [if_pos h, if_pos h]
      have hsplit : av.get k ++ o.ticketNumber :: usedTickets rest k =
          (av.get k ++ [o.ticketNumber]) ++ usedTickets rest k := by
        rw [List.append_assoc, List.singleton_append]
      rw [hsplit]
      exact (List.perm_insertionSort _ _).append_right _
    · rw [if_neg h, if_neg h]

theorem foldl_returnTicket_sorted (items : List OrderItem) (av : AvailableTickets)
    (hav : ∀ k, (av.get k).Sorted (· ≤ ·)) (k : Item) :
    ((items.foldl returnTicket av).get k).Sorted (· ≤ ·) := by
  induction items generalizing av with
  | nil => exact hav k
  | cons o rest ih =>
    refine ih (returnTicket av o) (fun k' => ?_)
    rw [get_returnTicket]
    by_cases h : o.item = k'
    · rw [if_pos h]
      exact List.sorted_insertionSort _ _
    · rw [if_neg h]
      exact hav k'

/-- A sample component state with one staged order, for concrete witnesses. -/
def sampleStagedState : ComponentState :=
  { orderItems := [], tempOrderItems := [⟨7, Item.ringo, 350, 1⟩],
    availableTickets := { ringo := [2, 3], banana := ticketRange } }

/-- C5: for every staged-order list and (sorted) pool state, `clearTempOrder`
re-inserts each staged order's ticket number into its kind's pool keeping it
sorted ascending (the final pool of each kind is a sorted permutation of the
previous pool plus that kind's staged tickets), empties the staged list, and
issues no operation against the durable store. -/
theorem clearTempOrder_spec (s : ComponentState)
    (hr : (s.availableTickets.get Item.ringo).Sorted (· ≤ ·))
    (hb : (s.availableTickets.get Item.banana).Sorted (· ≤ ·)) :
    (clearTempOrder s).2 = [] ∧
    (clearTempOrder s).1.tempOrderItems = [] ∧
    (clearTempOrder s).1.orderItems = s.orderItems ∧
    ∀ k, (((clearTempOrder s).1.availableTickets).get k).Sorted (· ≤ ·) ∧
      List.Perm (((clearTempOrder s).1.availableTickets).get k)
        (s.availableTickets.get k ++ usedTickets s.tempOrderItems k) := by
  have hav : ∀ k, (s.availableTickets.get k).Sorted (· ≤ ·) := by
    intro k
    cases k
    · exact hr
    · exact hb
  exact ⟨rfl, rfl, rfl, fun k =>
    ⟨foldl_returnTicket_sorted s.tempOrderItems s.availableTickets hav k,
      foldl_returnTicket_perm s.tempOrderItems s.availableTickets k⟩⟩

theorem clearTempOrder_spec_witness :
    (sampleStagedState.availableTickets.get Item.ringo).Sorted (· ≤ ·) ∧
    (sampleStagedState.availableTickets.get Item.banana).Sorted (· ≤ ·) ∧
    (clearTempOrder sampleStagedState).1.tempOrderItems = [] ∧
    List.Perm (((clearTempOrder sampleStagedState).1.availableTickets).get Item.ringo)
      (sampleStagedState.availableTickets.get Item.ringo ++
        usedTickets sampleStagedState.tempOrderItems Item.ringo) :=
  ⟨by decide, by decide,
    (clearTempOrder_spec sampleStagedState (by decide) (by decide)).2.1,
    ((clearTempOrder_spec sampleStagedState (by decide) (by decide)).2.2.2 Item.ringo).2⟩

theorem mem_usedTickets_remove {db : List OrderItem} {o : OrderItem} (ho : o ∈ db)
    (hid : (db.map (fun r => r.id)).Nodup)
    (htick : (usedTickets db o.item).Nodup) (k : Item) (t : Int) :
    t ∈ usedTickets (db.filter (fun r => decide (r.id ≠ o.id))) k ↔
      (t ∈ usedTickets db k ∧ ¬(k = o.item ∧ t = o.ticketNumber)) := by
  constructor
  · intro h
    obtain ⟨r, hr, hrk, hrt⟩ := mem_usedTickets.mp h
    rw [List.mem_filter] at hr
    obtain ⟨hrdb, hrid⟩ := hr
    have hrid' : r.id ≠ o.id := by simpa using hrid
    refine ⟨mem_usedTickets.mpr ⟨r, hrdb, hrk, hrt⟩, ?_⟩
    rintro ⟨rfl, rfl⟩
    have hrmem : r ∈ db.filter (fun x => decide (x.item = o.item)) :=
      List.mem_filter.mpr ⟨hrdb, by simp [hrk]⟩
    have homem : o ∈ db.filter (fun x => decide (x.item = o.item)) :=
      List.mem_filter.mpr ⟨ho, by simp⟩
    exact hrid' (congrArg OrderItem.id
      (List.inj_on_of_nodup_map htick hrmem homem hrt))
  · rintro ⟨h1, h2⟩
    obtain ⟨r, hrdb, hrk, hrt⟩ := mem_usedTickets.mp h1
    have hrid : r.id ≠ o.id := by
      intro heq
      have hro : r = o := List.inj_on_of_nodup_map hid hrdb ho heq
      subst hro
      exact h2 ⟨hrk.symm, hrt.symm⟩
    exact mem_usedTickets.mpr
      ⟨r, List.mem_filter.mpr ⟨hrdb, by simpa using hrid⟩, hrk, hrt⟩

/-- C2: for every open order in a well-formed database (unique ids, no
duplicate ticket of its kind, ticket in range), removing it via `removeItem`
followed by the refetch-and-recompute returns exactly that order's ticket
number to its kind's pool — membership in the recomputed pool is membership
in the previous pool plus exactly that ticket — and every resulting pool is
duplicate-free and sorted ascending. -/
theorem removeItem_returns_ticket (s : ComponentState) (db : DB) (o : OrderItem)
    (ho : o ∈ db) (hid : (db.map (fun r => r.id)).Nodup)
    (htick : (usedTickets db o.item).Nodup)
    (h1 : 1 ≤ o.ticketNumber) (h10 : o.ticketNumber ≤ (TICKET_COUNT : Int)) :
    o.ticketNumber ∉ (updateAvailableTickets db).get o.item ∧
    (∀ k, (((removeItem s db true true o.id).1.availableTickets).get k).Sorted (· < ·) ∧
      (((removeItem s db true true o.id).1.availableTickets).get k).Nodup) ∧
    (∀ k t, t ∈ ((removeItem s db true true o.id).1.availableTickets).get k ↔
      (t ∈ (updateAvailableTickets db).get k ∨ (k = o.item ∧ t = o.ticketNumber))) := by
  have hdb' : (removeItem s db true true o.id).1.availableTickets =
      updateAvailableTickets (db.filter (fun r => decide (r.id ≠ o.id))) := rfl
  refine ⟨?_, ?_, ?_⟩
  · intro hmem
    exact (mem_updateAvailableTickets.mp hmem).2 (mem_usedTickets.mpr ⟨o, ho, rfl, rfl⟩)
  · intro k
    rw [hdb']
    exact ⟨sorted_updateAvailableTickets _ k, nodup_updateAvailableTickets _ k⟩
  · intro k t
    rw [hdb', mem_updateAvailableTickets, mem_usedTickets_remove ho hid htick,
      mem_updateAvailableTickets]
    constructor
    · rintro ⟨hrange, hnot⟩
      by_cases hk : k = o.item ∧ t = o.ticketNumber
      · exact Or.inr hk
      · exact Or.inl ⟨hrange, fun hu => hnot ⟨hu, hk⟩⟩
    · rintro (⟨hrange, hu⟩ | ⟨rfl, rfl⟩)
      · exact ⟨hrange, fun hc => hu hc.1⟩
      · exact ⟨⟨h1, h10⟩, fun hc => hc.2 ⟨rfl, rfl⟩⟩

theorem removeItem_returns_ticket_witness :
    sampleOrder ∈ sampleDB ∧
    (sampleDB.map (fun r => r.id)).Nodup ∧
    (usedTickets sampleDB sampleOrder.item).Nodup ∧
    (1 ≤ sampleOrder.ticketNumber ∧ sampleOrder.ticketNumber ≤ (TICKET_COUNT : Int)) ∧
    1 ∈ ((removeItem sampleState sampleDB true true sampleOrder.id).1.availableTickets).get
      Item.ringo :=
  ⟨by decide, by decide, by decide, by decide,
    ((removeItem_returns_ticket sampleState sampleDB sampleOrder (by decide) (by decide)
        (by decide) (by decide) (by decide)).2.2 Item.ringo 1).mpr (Or.inr ⟨rfl, rfl⟩)⟩

/-! A concrete execution showing that refetch-and-recompute ignores the
staged orders: start from the initial state, stage one apple order, receive
a change notification (the store still holds no rows), then stage again and
clear. -/

def overSellState0 : ComponentState :=
  { orderItems := [], tempOrderItems := [], availableTickets := initialAvailableTickets }

def overSellState1 : ComponentState := (addTempItem overSellState0 Item.ringo 350 100).1

def overSellState2 : ComponentState := handleChange overSellState1 [] true

def overSellState3 : ComponentState := (addTempItem overSellState2 Item.ringo 350 101).1

/-- C9: pool recomputation ignores staged orders.  After staging one apple
order (which holds ticket 1), a change notification's refetch-and-recompute
re-adds ticket 1 to the pool while the staged order still holds it, so the
no-ticket-both-staged-and-pooled invariant is not preserved; a subsequent
`addTempItem` stages ticket 1 a second time, and `clearTempOrder` then
produces an apple pool with a duplicate entry. -/
theorem staged_invariant_not_preserved :
    (usedTickets overSellState2.tempOrderItems Item.ringo = [1] ∧
      1 ∈ overSellState2.availableTickets.get Item.ringo) ∧
    usedTickets overSellState3.tempOrderItems Item.ringo = [1, 1] ∧
    ¬ (((clearTempOrder overSellState3).1.availableTickets).get Item.ringo).Nodup := by
  decide

end OrderManagement
